import Mathlib

/-!
Verification of the ESP32 BPM-detector core (esp32-bpm-detector).

The detector pipeline of src/bpm_detector.cpp and the analog front end of
src/src/audio_input.cpp are shallowly embedded here.  C++ `float`/`double`
arithmetic is modelled by exact arithmetic: `ℚ` wherever the code only adds,
multiplies, divides and compares, and `ℝ` where the code takes a square root
(`sqrtf`) or a tangent (`tan`).  `unsigned long` millisecond timestamps are
modelled by `ℕ`; the C unsigned subtraction `a - b` agrees with `ℕ`
subtraction whenever `b ≤ a`, which the beat-history invariant (strictly
increasing timestamps, monotonic `millis()` clock) guarantees on every
reachable history.  `std::vector<float>` becomes `List ℚ`, `std::sort` the
sorted permutation `List.insertionSort (· ≤ ·)`.
-/

namespace BPMCore

/-! ## Configuration constants (src/config.h) -/

def MIN_BPM : ℚ := 60

def MAX_BPM : ℚ := 200

def DETECTION_THRESHOLD : ℚ := 1/2

def CONFIDENCE_THRESHOLD : ℚ := 3/10

def BASS_FREQ_MIN : ℕ := 40

def BASS_FREQ_MAX : ℕ := 200

def ENVELOPE_DECAY : ℚ := 9/10

/-- Minimum milliseconds between beats (config.h `MIN_BEAT_INTERVAL`). -/
def MIN_BEAT_INTERVAL : ℕ := 300

/-- Maximum milliseconds between beats (config.h `MAX_BEAT_INTERVAL`). -/
def MAX_BEAT_INTERVAL : ℕ := 1000

def BEAT_HISTORY_SIZE : ℕ := 32

/-! ## Detector state (class BPMDetector, src/bpm_detector.h) -/

/-- The per-instance fields of `class BPMDetector`.  `adc_pin_` and the
test-mode fields play no part in the claims and are omitted; everything the
detection pipeline reads or writes is here. -/
structure BPMDetector where
  sample_rate : ℕ
  fft_size : ℕ
  min_bpm : ℚ
  max_bpm : ℚ
  detection_threshold : ℚ
  envelope_value : ℚ
  envelope_threshold : ℚ
  sample_buffer : List ℚ
  fft_buffer : List ℚ
  beat_times : List ℕ
  deriving DecidableEq

/-- Constructor `BPMDetector::BPMDetector(sample_rate, fft_size)`
(src/bpm_detector.cpp lines 12-37): both buffers are `resize`d to their full
capacity filled with zeros, the beat history starts empty, and the envelope
threshold starts at `DETECTION_THRESHOLD`. -/
def BPMDetector.init (sample_rate fft_size : ℕ) : BPMDetector :=
  { sample_rate := sample_rate
    fft_size := fft_size
    min_bpm := MIN_BPM
    max_bpm := MAX_BPM
    detection_threshold := DETECTION_THRESHOLD
    envelope_value := 0
    envelope_threshold := DETECTION_THRESHOLD
    sample_buffer := List.replicate fft_size 0
    fft_buffer := List.replicate (fft_size / 2) 0
    beat_times := [] }

/-- `BPMDetector::addSample` (src/bpm_detector.cpp lines 78-89): grow while
below capacity, else shift the first `fft_size` entries left by one and write
the new value at index `fft_size - 1` (entries beyond `fft_size`, which never
exist on reachable states, are untouched by the C loop). -/
def BPMDetector.addSample (st : BPMDetector) (value : ℚ) : BPMDetector :=
  if st.sample_buffer.length < st.fft_size then
    { st with sample_buffer := st.sample_buffer ++ [value] }
  else
    { st with sample_buffer :=
        (st.sample_buffer.drop 1).take (st.fft_size - 1) ++ [value]
          ++ st.sample_buffer.drop st.fft_size }

/-- `BPMDetector::isBufferReady` (src/bpm_detector.cpp lines 91-93):
`sample_buffer_.size() >= fft_size_`. -/
def BPMDetector.isBufferReady (st : BPMDetector) : Bool :=
  st.fft_size ≤ st.sample_buffer.length

/-! ## Tempo estimation (`calculateBPM`, src/bpm_detector.cpp lines 263-307) -/

/-- Consecutive inter-beat intervals `beat_times_[i] - beat_times_[i-1]`
cast to float.  The device subtracts `unsigned long`s; `ℕ` subtraction agrees
with it whenever the history is non-decreasing, the invariant of every
reachable history. -/
def beatIntervals : List ℕ → List ℚ
  | [] => []
  | [_] => []
  | a :: b :: rest => ((b - a : ℕ) : ℚ) :: beatIntervals (b :: rest)

/-- The interval filter shared by `calculateBPM` and `calculateConfidence`:
keep `interval_ms >= MIN_BEAT_INTERVAL && interval_ms <= MAX_BEAT_INTERVAL`. -/
def validIntervals (ts : List ℕ) : List ℚ :=
  (beatIntervals ts).filter
    (fun i => (MIN_BEAT_INTERVAL : ℚ) ≤ i ∧ i ≤ (MAX_BEAT_INTERVAL : ℚ))

/-- `BPMDetector::calculateBPM` (src/bpm_detector.cpp lines 263-307),
statement by statement: fewer than 2 timestamps returns 0; the consecutive
intervals are filtered into `[MIN_BEAT_INTERVAL, MAX_BEAT_INTERVAL]`; an
empty remainder returns 0; otherwise the intervals are sorted (`std::sort`),
the median is the middle value (odd count) or the average of the two middle
values (even count), `bpm = 60000 / median`, and two successive `if`s zero a
result below `min_bpm_` or above `max_bpm_`. -/
def BPMDetector.calculateBPM (st : BPMDetector) : ℚ :=
  if st.beat_times.length < 2 then 0
  else
    let intervals := validIntervals st.beat_times
    if intervals = [] then 0
    else
      let sorted := intervals.insertionSort (· ≤ ·)
      let median_interval :=
        if intervals.length % 2 = 0 then
          (sorted.getD (intervals.length / 2 - 1) 0
            + sorted.getD (intervals.length / 2) 0) / 2
        else
          sorted.getD (intervals.length / 2) 0
      let bpm := 60000 / median_interval
      let bpm := if bpm < st.min_bpm then 0 else bpm
      let bpm := if st.max_bpm < bpm then 0 else bpm
      bpm

/-- Median as the specification words it: sort, take the middle sorted value
for an odd count and the average of the two middle sorted values for an even
count. -/
def medianSpec (l : List ℚ) : ℚ :=
  let s := l.insertionSort (· ≤ ·)
  if l.length % 2 = 0 then
    (s.getD (l.length / 2 - 1) 0 + s.getD (l.length / 2) 0) / 2
  else
    s.getD (l.length / 2) 0

/-- The BPM value exactly as claim C1 words it: 0 under 2 timestamps, the
intervals filtered into `[MIN_BEAT_INTERVAL, MAX_BEAT_INTERVAL]`, 0 when none
survive, else `60000 / median`, replaced by 0 whenever that value falls
outside `[min_bpm, max_bpm]`. -/
def bpmSpec (st : BPMDetector) : ℚ :=
  if st.beat_times.length < 2 then 0
  else
    let intervals := validIntervals st.beat_times
    if intervals = [] then 0
    else
      let r := 60000 / medianSpec intervals
      if st.min_bpm ≤ r ∧ r ≤ st.max_bpm then r else 0

/-- The workhorse behind claim C1: the code path of `calculateBPM` equals
the specification's value (also reused for the `detect` classification). -/
lemma calculateBPM_eq_bpmSpec (st : BPMDetector) :
    st.calculateBPM = bpmSpec st := by
  unfold BPMDetector.calculateBPM bpmSpec medianSpec
  by_cases h2 : st.beat_times.length < 2
  · simp [h2]
  · simp only [h2, if_false]
    by_cases hI : validIntervals st.beat_times = []
    · simp [hI]
    · simp only [hI, if_false]
      set r := 60000 /
        (if (validIntervals st.beat_times).length % 2 = 0 then
          (((validIntervals st.beat_times).insertionSort (· ≤ ·)).getD
              ((validIntervals st.beat_times).length / 2 - 1) 0
            + ((validIntervals st.beat_times).insertionSort (· ≤ ·)).getD
              ((validIntervals st.beat_times).length / 2) 0) / 2
        else
          ((validIntervals st.beat_times).insertionSort (· ≤ ·)).getD
            ((validIntervals st.beat_times).length / 2) 0) with hr
      by_cases hlo : r < st.min_bpm
      · have : ¬ (st.min_bpm ≤ r ∧ r ≤ st.max_bpm) := by
          intro hc
          exact absurd hc.1 (not_le.mpr hlo)
        simp only [hlo, if_true, this, if_false]
        by_cases hneg : st.max_bpm < 0 <;> simp [hneg]
      · by_cases hhi : st.max_bpm < r
        · have : ¬ (st.min_bpm ≤ r ∧ r ≤ st.max_bpm) := by
            intro hc
            exact absurd hc.2 (not_le.mpr hhi)
          simp [hlo, hhi, this]
        · have : st.min_bpm ≤ r ∧ r ≤ st.max_bpm :=
            ⟨not_lt.mp hlo, not_lt.mp hhi⟩
          simp [hlo, hhi, this]

/-! ## Confidence (`calculateConfidence`, src/bpm_detector.cpp lines 309-360) -/

/-- `BPMDetector::calculateConfidence` (src/bpm_detector.cpp lines 309-360),
statement by statement: fewer than 3 timestamps returns 0; the same interval
filtering; an empty remainder returns 0; `mean = sum / size`, an early 0 when
`mean < 1.0f`; population variance `sum((x - mean)^2) / size`;
`std_dev = sqrtf(variance)`; `cv = std_dev / mean`;
`confidence = 1 - cv * 2` clamped by two successive `if`s into `[0, 1]`.
The square root makes the result real-valued. -/
noncomputable def BPMDetector.calculateConfidence (st : BPMDetector) : ℝ :=
  if st.beat_times.length < 3 then 0
  else
    let intervals := validIntervals st.beat_times
    if intervals = [] then 0
    else
      let mean : ℚ := intervals.sum / intervals.length
      if mean < 1 then 0
      else
        let variance : ℚ :=
          (intervals.map (fun i => (i - mean) * (i - mean))).sum
            / intervals.length
        let std_dev : ℝ := Real.sqrt (variance : ℝ)
        let cv : ℝ := std_dev / (mean : ℝ)
        let confidence : ℝ := 1 - cv * 2
        let confidence := if confidence < 0 then 0 else confidence
        let confidence := if 1 < confidence then 1 else confidence
        confidence

/-- Arithmetic mean of the intervals, as the specification words it. -/
def meanOf (l : List ℚ) : ℚ := l.sum / l.length

/-- Population variance of the intervals, as the specification words it. -/
def varOf (l : List ℚ) : ℚ := (l.map (fun i => (i - meanOf l) ^ 2)).sum / l.length

/-- The confidence value exactly as claim C4 words it: 0 under 3 timestamps,
0 when no interval survives the filter, else
`clamp(1 - 2 * (stddev / mean), 0, 1)` with `stddev` the population standard
deviation and `mean` the arithmetic mean of the surviving intervals. -/
noncomputable def confidenceSpec (st : BPMDetector) : ℝ :=
  if st.beat_times.length < 3 then 0
  else
    let intervals := validIntervals st.beat_times
    if intervals = [] then 0
    else
      max 0 (min 1
        (1 - 2 * (Real.sqrt ((varOf intervals : ℚ) : ℝ) / (meanOf intervals : ℚ))))

/-- A list of values all at least `c` has sum at least `c` times its length. -/
lemma mul_length_le_sum (c : ℚ) :
    ∀ l : List ℚ, (∀ x ∈ l, c ≤ x) → c * l.length ≤ l.sum
  | [], _ => by simp
  | x :: xs, h => by
    have hx := h x (List.mem_cons_self _ _)
    have hxs := mul_length_le_sum c xs (fun y hy => h y (List.mem_cons_of_mem _ hy))
    simp only [List.length_cons, List.sum_cons]
    push_cast
    linarith

/-- Every surviving interval is at least `MIN_BEAT_INTERVAL = 300`, so a
nonempty filtered list has mean at least 300; the code's `mean < 1.0f` early
return is dead there. -/
lemma meanOf_validIntervals_ge (ts : List ℕ)
    (h : validIntervals ts ≠ []) : (300 : ℚ) ≤ meanOf (validIntervals ts) := by
  set l := validIntervals ts with hl
  have hmem : ∀ x ∈ l, (300 : ℚ) ≤ x := by
    intro x hx
    have h1 := List.of_mem_filter (p := fun i =>
      decide ((MIN_BEAT_INTERVAL : ℚ) ≤ i ∧ i ≤ (MAX_BEAT_INTERVAL : ℚ))) hx
    have h2 := of_decide_eq_true h1
    simpa [MIN_BEAT_INTERVAL] using h2.1
  have hlen : 0 < l.length := List.length_pos.mpr h
  have hsum : (300 : ℚ) * l.length ≤ l.sum := mul_length_le_sum 300 l hmem
  have hq : (0 : ℚ) < (l.length : ℚ) := by exact_mod_cast hlen
  rw [meanOf, le_div_iff₀ hq]
  linarith [hsum]

/-- The workhorse behind claim C4: the code path of `calculateConfidence`
equals the specification's value (the `mean < 1.0f` early return is dead
because surviving intervals are at least 300 ms). -/
lemma calculateConfidence_eq_confidenceSpec (st : BPMDetector) :
    st.calculateConfidence = confidenceSpec st := by
  unfold BPMDetector.calculateConfidence confidenceSpec
  by_cases h3 : st.beat_times.length < 3
  · simp [h3]
  · simp only [h3, if_false]
    by_cases hI : validIntervals st.beat_times = []
    · simp [hI]
    · simp only [hI, if_false]
      set l := validIntervals st.beat_times with hlI
      have hm : l.sum / (l.length : ℚ) = meanOf l := rfl
      have hmean : (300 : ℚ) ≤ meanOf l := meanOf_validIntervals_ge st.beat_times hI
      have hmean1 : ¬ (meanOf l < 1) := by
        rw [not_lt]
        linarith
      simp only [hm]
      simp only [hmean1, if_false]
      have hvar : (l.map (fun i => (i - meanOf l) * (i - meanOf l))).sum
            / (l.length : ℚ) = varOf l := by
        unfold varOf
        congr 2
        apply List.map_congr_left
        intro x _
        ring
      rw [hvar]
      set c : ℝ := 1 - Real.sqrt ((varOf l : ℚ) : ℝ)
          / ((meanOf l : ℚ) : ℝ) * 2 with hc
      have harg : (1 : ℝ) - 2 * (Real.sqrt ((varOf l : ℚ) : ℝ)
          / ((meanOf l : ℚ) : ℝ)) = c := by
        rw [hc]; ring
      rw [harg]
      by_cases hneg : c < 0
      · have h01 : ¬ ((1 : ℝ) < 0) := by norm_num
        simp only [hneg, if_true, h01, if_false]
        rw [max_eq_left (le_trans (min_le_right 1 c) (le_of_lt hneg))]
      · simp only [hneg, if_false]
        by_cases hbig : (1 : ℝ) < c
        · simp only [hbig, if_true]
          rw [min_eq_left (le_of_lt hbig),
            max_eq_right (by norm_num : (0 : ℝ) ≤ 1)]
        · simp only [hbig, if_false]
          rw [min_eq_right (not_lt.mp hbig), max_eq_right (not_lt.mp hneg)]

/-! ## Beat envelope detection (`detectBeatEnvelope`,
src/bpm_detector.cpp lines 195-261) -/

/-- The bass FFT bins (src/bpm_detector.cpp lines 199-208):
`min_bin = (size_t)(BASS_FREQ_MIN / freq_resolution)` with
`freq_resolution = sample_rate / fft_size`, so `min_bin = ⌊40·N/sr⌋` and
`max_bin = ⌊200·N/sr⌋`; then `min_bin` is reset to 0 if it reaches `N/2` and
`max_bin` is clamped to `N/2 - 1`. -/
def bassBins (sample_rate fft_size : ℕ) : ℕ × ℕ :=
  let min_bin := BASS_FREQ_MIN * fft_size / sample_rate
  let max_bin := BASS_FREQ_MAX * fft_size / sample_rate
  let min_bin := if fft_size / 2 ≤ min_bin then 0 else min_bin
  let max_bin := if fft_size / 2 ≤ max_bin then fft_size / 2 - 1 else max_bin
  (min_bin, max_bin)

/-- The bass energy (src/bpm_detector.cpp lines 210-216): the magnitudes of
bins `min_bin..max_bin` summed and divided by the bin count. -/
def bassEnergyOf (sample_rate fft_size : ℕ) (fft_buffer : List ℚ) : ℚ :=
  let bins := bassBins sample_rate fft_size
  (((List.range (bins.2 + 1 - bins.1)).map
      (fun k => fft_buffer.getD (bins.1 + k) 0)).sum)
    / ((bins.2 - bins.1 + 1 : ℕ) : ℚ)

/-- Function-local `static` storage of BPMDetector member functions, shared
by every instance in the program: `prev_envelope`
(src/bpm_detector.cpp line 237) and the `vReal`/`vImag` scratch arrays of
`performFFT` (lines 154-156, represented by their one-time allocation size,
fixed by whichever instance runs `performFFT` first). -/
structure Globals where
  prev_envelope : ℚ
  fft_scratch_size : Option ℕ
  deriving DecidableEq

/-- `BPMDetector::detectBeatEnvelope` (src/bpm_detector.cpp lines 195-261).
`signal_level` stands for `audio_input->getNormalizedLevel()` (0 when the
global audio input is absent) and `now` for `millis()`.  The envelope rises
instantly and decays by `ENVELOPE_DECAY`; the threshold is
`detection_threshold · (0.5 + 0.5·signal_level)`; a beat fires on a rising
edge through the threshold, judged against the instance-shared static
`prev_envelope`, and is recorded only if the history is empty or
`now - beat_times_.back() ≥ MIN_BEAT_INTERVAL` (unsigned subtraction,
modelled on `ℕ`); the history is trimmed to `BEAT_HISTORY_SIZE` by dropping
its front. -/
def BPMDetector.detectBeatEnvelope (st : BPMDetector) (g : Globals)
    (signal_level : ℚ) (now : ℕ) : BPMDetector × Globals :=
  let bass_energy := bassEnergyOf st.sample_rate st.fft_size st.fft_buffer
  let env :=
    if st.envelope_value < bass_energy then bass_energy
    else st.envelope_value * ENVELOPE_DECAY + bass_energy * (1 - ENVELOPE_DECAY)
  let thr := st.detection_threshold * (1/2 + signal_level * (1/2))
  let beats :=
    if thr < env ∧ g.prev_envelope ≤ thr then
      if st.beat_times = [] ∨
          MIN_BEAT_INTERVAL ≤ now - st.beat_times.getLastD 0 then
        let b := st.beat_times ++ [now]
        if BEAT_HISTORY_SIZE < b.length then b.drop 1 else b
      else st.beat_times
    else st.beat_times
  let st' : BPMDetector :=
    { st with
      envelope_value := env
      envelope_threshold := thr
      beat_times := beats }
  (st', { g with prev_envelope := env })

/-! ## FFT and orchestration (`performFFT`, `detect`,
src/bpm_detector.cpp lines 95-193) -/

/-- `BPMDetector::performFFT` (src/bpm_detector.cpp lines 151-193).  The
Hamming-windowed ArduinoFFT magnitudes involve transcendental window and
twiddle factors, so the magnitude vector the FFT writes back into
`fft_buffer_` (its first `fft_size/2` bins) is taken as an oracle argument
`mags`; every theorem below holds for an arbitrary spectrum.  The call also
allocates the function-static `vReal`/`vImag` scratch (sized by the first
caller's `fft_size_`) on first use. -/
def BPMDetector.performFFT (st : BPMDetector) (g : Globals)
    (mags : List ℚ) : BPMDetector × Globals :=
  ({ st with fft_buffer := mags },
   { g with fft_scratch_size :=
      (match g.fft_scratch_size with
        | none => some st.fft_size
        | some n => some n) })

/-- The result struct `BPMDetector::BPMData` (src/bpm_detector.h lines 9-15).
`confidence` is real-valued because `calculateConfidence` takes a square
root; `signal_level` is real-valued because the fallback branch of `detect`
takes an RMS square root. -/
structure BPMData where
  bpm : ℚ
  confidence : ℝ
  signal_level : ℝ
  status : String
  timestamp : ℕ

/-- The signal level `detect` reports (src/bpm_detector.cpp lines 109-121):
`audio_input->getNormalizedLevel()` when the global audio input exists
(`audioLevel = some l`), else the RMS of the sample buffer clamped to 1. -/
noncomputable def detectSignalLevel (st : BPMDetector)
    (audioLevel : Option ℚ) : ℝ :=
  match audioLevel with
  | some l => ((l : ℚ) : ℝ)
  | none =>
      let rms := Real.sqrt
        (((st.sample_buffer.map (fun s => s * s)).sum
          / st.sample_buffer.length : ℚ) : ℝ)
      if 1 < rms then 1 else rms

/-- The status classification of `detect` (src/bpm_detector.cpp lines
139-146): "detecting" when `bpm > 0` and `confidence >= CONFIDENCE_THRESHOLD`,
"low_confidence" when only `bpm > 0`, else "no_beats". -/
noncomputable def classifyStatus (bpm : ℚ) (conf : ℝ) : String :=
  if 0 < bpm ∧ (CONFIDENCE_THRESHOLD : ℝ) ≤ conf then "detecting"
  else if 0 < bpm then "low_confidence"
  else "no_beats"

/-- The detector-and-globals state after the processing stage of `detect`
(`performFFT` then `detectBeatEnvelope`, src/bpm_detector.cpp lines
129-133). -/
def BPMDetector.detectStep (st : BPMDetector) (g : Globals)
    (audioLevel : Option ℚ) (mags : List ℚ) (now : ℕ) :
    BPMDetector × Globals :=
  (st.performFFT g mags).1.detectBeatEnvelope
    (st.performFFT g mags).2 (audioLevel.getD 0) now

/-- `BPMDetector::detect` (src/bpm_detector.cpp lines 95-149).
`audioLevel` stands for the global `audio_input`: `some l` when it exists and
`audio_input->getNormalizedLevel()` returns `l`, `none` when it is null (then
the signal level falls back to the RMS of the sample buffer, clamped to 1).
`mags` is the FFT magnitude oracle of `performFFT` and `now` is `millis()`. -/
noncomputable def BPMDetector.detect (st : BPMDetector) (g : Globals)
    (audioLevel : Option ℚ) (mags : List ℚ) (now : ℕ) :
    BPMData × BPMDetector × Globals :=
  if st.isBufferReady = false then
    ({ bpm := 0, confidence := 0, signal_level := 0,
       status := "buffering", timestamp := now }, st, g)
  else
    if detectSignalLevel st audioLevel < 1/100 then
      ({ bpm := 0, confidence := 0,
         signal_level := detectSignalLevel st audioLevel,
         status := "low_signal", timestamp := now }, st, g)
    else
      ({ bpm := (st.detectStep g audioLevel mags now).1.calculateBPM,
         confidence := (st.detectStep g audioLevel mags now).1.calculateConfidence,
         signal_level := detectSignalLevel st audioLevel,
         status := classifyStatus
           (st.detectStep g audioLevel mags now).1.calculateBPM
           (st.detectStep g audioLevel mags now).1.calculateConfidence,
         timestamp := now },
       (st.detectStep g audioLevel mags now).1,
       (st.detectStep g audioLevel mags now).2)

/-! ## Method-call views for the frame claim (C10) -/

/-- Calling the method `calculateBPM()` on the object (value returned, object
after the call): the body (src/bpm_detector.cpp lines 263-307) reads
`beat_times_`, `min_bpm_` and `max_bpm_` and writes only the locals
`intervals`, `median_interval` and `bpm`, never a member, so the object
after the call is the object before it. -/
def BPMDetector.calculateBPMCall (st : BPMDetector) : ℚ × BPMDetector :=
  (st.calculateBPM, st)

/-- Calling the method `calculateConfidence()` on the object (value
returned, object after the call): the body (src/bpm_detector.cpp lines
309-360) reads `beat_times_` and writes only locals, never a member. -/
noncomputable def BPMDetector.calculateConfidenceCall (st : BPMDetector) :
    ℝ × BPMDetector :=
  (st.calculateConfidence, st)

/-! ## Claim theorems -/

/-- C1: for every beat history, `calculateBPM()` returns 0 when fewer than 2
timestamps are held; otherwise it filters the consecutive inter-beat
intervals into `[MIN_BEAT_INTERVAL, MAX_BEAT_INTERVAL]`, returns 0 if none
remain, and otherwise returns `60000 / median` of the surviving intervals
(even count: average of the two middle sorted values; odd count: the middle
sorted value), replaced by 0 whenever it falls outside
`[min_bpm, max_bpm]`. -/
theorem C1_calculateBPM_median_clamp (st : BPMDetector) :
    st.calculateBPM = bpmSpec st :=
  calculateBPM_eq_bpmSpec st

/-- C4: for every beat history, `calculateConfidence()` returns 0 when fewer
than 3 timestamps are held; otherwise it filters the consecutive intervals
into `[MIN_BEAT_INTERVAL, MAX_BEAT_INTERVAL]` (returning 0 if none survive)
and returns `clamp(1 - 2·(stddev/mean), 0, 1)`, with `mean` the arithmetic
mean and `stddev` the population standard deviation of the surviving
intervals. -/
theorem C4_calculateConfidence_cv_clamp (st : BPMDetector) :
    st.calculateConfidence = confidenceSpec st :=
  calculateConfidence_eq_confidenceSpec st

/-- C10: `calculateBPM()` and `calculateConfidence()` are read-only on the
detector: every field — beat history, sample buffer, FFT buffer, envelope
value, envelope threshold and all configuration fields — is unchanged by a
call, and calling either twice in succession returns the same value both
times. -/
theorem C10_estimators_are_read_only (st : BPMDetector) :
    (st.calculateBPMCall.2.beat_times = st.beat_times ∧
      st.calculateBPMCall.2.sample_buffer = st.sample_buffer ∧
      st.calculateBPMCall.2.fft_buffer = st.fft_buffer ∧
      st.calculateBPMCall.2.envelope_value = st.envelope_value ∧
      st.calculateBPMCall.2.envelope_threshold = st.envelope_threshold ∧
      st.calculateBPMCall.2.sample_rate = st.sample_rate ∧
      st.calculateBPMCall.2.fft_size = st.fft_size ∧
      st.calculateBPMCall.2.min_bpm = st.min_bpm ∧
      st.calculateBPMCall.2.max_bpm = st.max_bpm ∧
      st.calculateBPMCall.2.detection_threshold = st.detection_threshold) ∧
    (st.calculateConfidenceCall.2 = st) ∧
    (st.calculateBPMCall.2.calculateBPMCall.1 = st.calculateBPMCall.1) ∧
    (st.calculateConfidenceCall.2.calculateConfidenceCall.1 =
      st.calculateConfidenceCall.1) := by
  exact ⟨⟨rfl, rfl, rfl, rfl, rfl, rfl, rfl, rfl, rfl, rfl⟩, rfl, rfl, rfl⟩

/-- C3 counterexample: the constructor `resize`s `sample_buffer_` to
`fft_size_` zeros (src/bpm_detector.cpp line 27), so immediately after
construction — zero samples added — `isBufferReady()` already returns true,
contradicting the claim that it returns false until exactly N samples have
been added. -/
theorem C3_counterexample_fresh_detector_ready :
    (BPMDetector.init 8000 512).isBufferReady = true := by
  unfold BPMDetector.isBufferReady BPMDetector.init
  rw [List.length_replicate]
  decide

/-- `addSample` never changes `fft_size_`. -/
lemma addSample_fft_size (st : BPMDetector) (v : ℚ) :
    (st.addSample v).fft_size = st.fft_size := by
  unfold BPMDetector.addSample
  split <;> rfl

/-- `addSample` keeps the buffer at or above `fft_size` entries. -/
lemma addSample_length (st : BPMDetector) (v : ℚ)
    (h : st.fft_size ≤ st.sample_buffer.length) :
    (st.addSample v).fft_size ≤ (st.addSample v).sample_buffer.length := by
  unfold BPMDetector.addSample
  by_cases hlt : st.sample_buffer.length < st.fft_size
  · exact absurd hlt (not_lt.mpr h)
  · simp only [hlt, if_false, List.length_append, List.length_take,
      List.length_drop, List.length_cons, List.length_nil]
    omega

/-- Auxiliary invariant for the amended C3: the sample buffer never shrinks
below `fft_size`, so `isBufferReady` stays true from construction on. -/
lemma foldl_addSample_ready :
    ∀ (vals : List ℚ) (st : BPMDetector),
      st.fft_size ≤ st.sample_buffer.length →
      (vals.foldl BPMDetector.addSample st).fft_size ≤
        (vals.foldl BPMDetector.addSample st).sample_buffer.length
  | [], _, h => h
  | v :: vals, st, h => by
    simpa using foldl_addSample_ready vals (st.addSample v)
      (addSample_length st v h)

/-- A ready detector's `detect` returns one of the four post-buffering
statuses. -/
lemma detect_status_of_ready (st : BPMDetector) (g : Globals)
    (audioLevel : Option ℚ) (mags : List ℚ) (now : ℕ)
    (h : st.isBufferReady = true) :
    (st.detect g audioLevel mags now).1.status = "low_signal" ∨
    (st.detect g audioLevel mags now).1.status = "detecting" ∨
    (st.detect g audioLevel mags now).1.status = "low_confidence" ∨
    (st.detect g audioLevel mags now).1.status = "no_beats" := by
  unfold BPMDetector.detect
  have hcond : ¬ (st.isBufferReady = false) := by
    rw [h]
    intro hc
    exact absurd hc (by decide)
  rw [if_neg hcond]
  by_cases hsl : detectSignalLevel st audioLevel < 1/100
  · rw [if_pos hsl]
    exact Or.inl rfl
  · rw [if_neg hsl]
    unfold classifyStatus
    by_cases hdet : 0 < (st.detectStep g audioLevel mags now).1.calculateBPM ∧
        (CONFIDENCE_THRESHOLD : ℝ) ≤
          (st.detectStep g audioLevel mags now).1.calculateConfidence
    · rw [if_pos hdet]
      exact Or.inr (Or.inl rfl)
    · rw [if_neg hdet]
      by_cases hlc : 0 < (st.detectStep g audioLevel mags now).1.calculateBPM
      · rw [if_pos hlc]
        exact Or.inr (Or.inr (Or.inl rfl))
      · rw [if_neg hlc]
        exact Or.inr (Or.inr (Or.inr rfl))

/-- C3 amended: after construction the sample buffer already holds
`fft_size` zeros, so `isBufferReady()` is true from the start and remains
true after any sequence of `addSample` calls, and `detect()` never returns
status "buffering". -/
theorem C3_amended_always_ready (sr n : ℕ) (vals : List ℚ) :
    ((vals.foldl BPMDetector.addSample (BPMDetector.init sr n)).isBufferReady
        = true) ∧
    (∀ (g : Globals) (audioLevel : Option ℚ) (mags : List ℚ) (now : ℕ),
      (((vals.foldl BPMDetector.addSample (BPMDetector.init sr n)).detect
          g audioLevel mags now).1.status ≠ "buffering")) := by
  have hinit : (BPMDetector.init sr n).fft_size ≤
      (BPMDetector.init sr n).sample_buffer.length := by
    simp [BPMDetector.init]
  have hlen := foldl_addSample_ready vals (BPMDetector.init sr n) hinit
  set st := vals.foldl BPMDetector.addSample (BPMDetector.init sr n) with hst
  have hready : st.isBufferReady = true := by
    unfold BPMDetector.isBufferReady
    exact decide_eq_true hlen
  refine ⟨hready, ?_⟩
  intro g audioLevel mags now
  rcases detect_status_of_ready st g audioLevel mags now hready with
    h | h | h | h <;> rw [h] <;> decide

/-- The specified BPM value is 0 whenever fewer than 2 beats are held, no
interval survives the filter, or the raw tempo falls outside
`[min_bpm, max_bpm]`. -/
lemma bpmSpec_eq_zero (st : BPMDetector)
    (h : st.beat_times.length < 2 ∨ validIntervals st.beat_times = [] ∨
      60000 / medianSpec (validIntervals st.beat_times) < st.min_bpm ∨
      st.max_bpm < 60000 / medianSpec (validIntervals st.beat_times)) :
    bpmSpec st = 0 := by
  unfold bpmSpec
  by_cases h2 : st.beat_times.length < 2
  · simp [h2]
  · simp only [h2, if_false]
    by_cases hI : validIntervals st.beat_times = []
    · simp [hI]
    · simp only [hI, if_false]
      have hout : ¬ (st.min_bpm ≤ 60000 / medianSpec (validIntervals st.beat_times) ∧
          60000 / medianSpec (validIntervals st.beat_times) ≤ st.max_bpm) := by
        rcases h with h | h | h | h
        · exact absurd h h2
        · exact absurd h hI
        · intro hc
          exact absurd hc.1 (not_le.mpr h)
        · intro hc
          exact absurd hc.2 (not_le.mpr h)
      simp [hout]

/-- C2: `detect()` reports "detecting" only with `bpm > 0` and
`confidence ≥ CONFIDENCE_THRESHOLD`; it reports "low_confidence" whenever
`bpm > 0` with confidence below the threshold, and "no_beats" whenever
`bpm = 0` past the buffering and low-signal gates; and whenever the
post-update history holds fewer than 2 valid beats or the computed tempo
falls outside `[min_bpm, max_bpm]`, the returned bpm is 0 and the status is
never "detecting". -/
theorem C2_detect_status_fail_to_zero (st : BPMDetector) (g : Globals)
    (audioLevel : Option ℚ) (mags : List ℚ) (now : ℕ) :
    ((st.detect g audioLevel mags now).1.status = "detecting" →
      0 < (st.detect g audioLevel mags now).1.bpm ∧
      (CONFIDENCE_THRESHOLD : ℝ) ≤ (st.detect g audioLevel mags now).1.confidence) ∧
    (0 < (st.detect g audioLevel mags now).1.bpm ∧
      (st.detect g audioLevel mags now).1.confidence < (CONFIDENCE_THRESHOLD : ℝ) →
      (st.detect g audioLevel mags now).1.status = "low_confidence") ∧
    ((st.detect g audioLevel mags now).1.bpm = 0 ∧
      (st.detect g audioLevel mags now).1.status ≠ "buffering" ∧
      (st.detect g audioLevel mags now).1.status ≠ "low_signal" →
      (st.detect g audioLevel mags now).1.status = "no_beats") ∧
    (((st.detect g audioLevel mags now).2.1.beat_times.length < 2 ∨
        validIntervals (st.detect g audioLevel mags now).2.1.beat_times = [] ∨
        60000 / medianSpec (validIntervals
          (st.detect g audioLevel mags now).2.1.beat_times) <
          (st.detect g audioLevel mags now).2.1.min_bpm ∨
        (st.detect g audioLevel mags now).2.1.max_bpm <
          60000 / medianSpec (validIntervals
            (st.detect g audioLevel mags now).2.1.beat_times)) →
      (st.detect g audioLevel mags now).1.bpm = 0 ∧
      (st.detect g audioLevel mags now).1.status ≠ "detecting") := by
  unfold BPMDetector.detect
  by_cases hready : st.isBufferReady = false
  · rw [if_pos hready]
    refine ⟨?_, ?_, ?_, ?_⟩
    · intro hc
      exact absurd (show ("buffering" : String) = "detecting" from hc) (by decide)
    · intro hc
      exact absurd hc.1 (by norm_num)
    · intro hc
      exact absurd rfl hc.2.1
    · intro _
      refine ⟨rfl, ?_⟩
      intro hc
      exact absurd (show ("buffering" : String) = "detecting" from hc) (by decide)
  · rw [if_neg hready]
    by_cases hsl : detectSignalLevel st audioLevel < 1/100
    · rw [if_pos hsl]
      refine ⟨?_, ?_, ?_, ?_⟩
      · intro hc
        exact absurd (show ("low_signal" : String) = "detecting" from hc) (by decide)
      · intro hc
        exact absurd hc.1 (by norm_num)
      · intro hc
        exact absurd rfl hc.2.2
      · intro _
        refine ⟨rfl, ?_⟩
        intro hc
        exact absurd (show ("low_signal" : String) = "detecting" from hc) (by decide)
    · rw [if_neg hsl]
      unfold classifyStatus
      by_cases hdet : 0 < (st.detectStep g audioLevel mags now).1.calculateBPM ∧
          (CONFIDENCE_THRESHOLD : ℝ) ≤
            (st.detectStep g audioLevel mags now).1.calculateConfidence
      · rw [if_pos hdet]
        refine ⟨fun _ => hdet, ?_, ?_, ?_⟩
        · intro hc
          have hcf : (st.detectStep g audioLevel mags now).1.calculateConfidence
              < (CONFIDENCE_THRESHOLD : ℝ) := hc.2
          exact absurd hdet.2 (not_le.mpr hcf)
        · intro hc
          have hb : (st.detectStep g audioLevel mags now).1.calculateBPM = 0 :=
            hc.1
          rw [hb] at hdet
          exact absurd hdet.1 (by norm_num)
        · intro hout
          have h0 : (st.detectStep g audioLevel mags now).1.calculateBPM = 0 := by
            rw [calculateBPM_eq_bpmSpec]
            exact bpmSpec_eq_zero _ hout
          rw [h0] at hdet
          exact absurd hdet.1 (by norm_num)
      · rw [if_neg hdet]
        by_cases hlc : 0 < (st.detectStep g audioLevel mags now).1.calculateBPM
        · rw [if_pos hlc]
          refine ⟨?_, fun _ => rfl, ?_, ?_⟩
          · intro hc
            exact absurd (show ("low_confidence" : String) = "detecting" from hc)
              (by decide)
          · intro hc
            have hb : (st.detectStep g audioLevel mags now).1.calculateBPM = 0 :=
              hc.1
            rw [hb] at hlc
            exact absurd hlc (by norm_num)
          · intro hout
            have h0 : (st.detectStep g audioLevel mags now).1.calculateBPM = 0 := by
              rw [calculateBPM_eq_bpmSpec]
              exact bpmSpec_eq_zero _ hout
            rw [h0] at hlc
            exact absurd hlc (by norm_num)
        · rw [if_neg hlc]
          refine ⟨?_, ?_, fun _ => rfl, ?_⟩
          · intro hc
            exact absurd (show ("no_beats" : String) = "detecting" from hc)
              (by decide)
          · intro hc
            exact absurd hc.1 hlc
          · intro hout
            have h0 : (st.detectStep g audioLevel mags now).1.calculateBPM = 0 := by
              rw [calculateBPM_eq_bpmSpec]
              exact bpmSpec_eq_zero _ hout
            refine ⟨h0, ?_⟩
            intro hc
            exact absurd (show ("no_beats" : String) = "detecting" from hc)
              (by decide)

/-- C7: a rising-edge threshold crossing appends `now` to the beat history
only when the history is empty or `now` minus the most recent stored
timestamp is at least `MIN_BEAT_INTERVAL`; the envelope and the adaptive
threshold are updated on every call (also on rejected crossings, which leave
the history unchanged); and under a monotonic clock the history stays
strictly increasing, never exceeds `BEAT_HISTORY_SIZE` entries and, when an
entry is evicted, only the oldest one goes. -/
theorem C7_beat_history_debounce_invariants (st : BPMDetector) (g : Globals)
    (sl : ℚ) (now : ℕ)
    (hchain : st.beat_times.Chain' (· < ·))
    (hpast : ∀ t ∈ st.beat_times, t ≤ now)
    (hsize : st.beat_times.length ≤ BEAT_HISTORY_SIZE) :
    ((st.detectBeatEnvelope g sl now).1.beat_times ≠ st.beat_times →
      ((st.detection_threshold * (1/2 + sl * (1/2)) <
          (if st.envelope_value <
              bassEnergyOf st.sample_rate st.fft_size st.fft_buffer then
            bassEnergyOf st.sample_rate st.fft_size st.fft_buffer
          else st.envelope_value * ENVELOPE_DECAY +
            bassEnergyOf st.sample_rate st.fft_size st.fft_buffer *
              (1 - ENVELOPE_DECAY)) ∧
        g.prev_envelope ≤ st.detection_threshold * (1/2 + sl * (1/2))) ∧
       (st.beat_times = [] ∨
         MIN_BEAT_INTERVAL ≤ now - st.beat_times.getLastD 0))) ∧
    ((st.detectBeatEnvelope g sl now).1.envelope_value =
      (if st.envelope_value <
          bassEnergyOf st.sample_rate st.fft_size st.fft_buffer then
        bassEnergyOf st.sample_rate st.fft_size st.fft_buffer
      else st.envelope_value * ENVELOPE_DECAY +
        bassEnergyOf st.sample_rate st.fft_size st.fft_buffer *
          (1 - ENVELOPE_DECAY))) ∧
    ((st.detectBeatEnvelope g sl now).1.envelope_threshold =
      st.detection_threshold * (1/2 + sl * (1/2))) ∧
    (st.detectBeatEnvelope g sl now).1.beat_times.Chain' (· < ·) ∧
    (st.detectBeatEnvelope g sl now).1.beat_times.length ≤ BEAT_HISTORY_SIZE ∧
    ((st.detectBeatEnvelope g sl now).1.beat_times = st.beat_times ∨
      (st.beat_times.length < BEAT_HISTORY_SIZE ∧
        (st.detectBeatEnvelope g sl now).1.beat_times =
          st.beat_times ++ [now]) ∨
      (st.beat_times.length = BEAT_HISTORY_SIZE ∧
        (st.detectBeatEnvelope g sl now).1.beat_times =
          st.beat_times.drop 1 ++ [now])) := by
  have hB : BEAT_HISTORY_SIZE = 32 := rfl
  rw [hB] at hsize
  unfold BPMDetector.detectBeatEnvelope
  dsimp only
  rw [hB]
  set e := bassEnergyOf st.sample_rate st.fft_size st.fft_buffer with he
  set env := (if st.envelope_value < e then e
    else st.envelope_value * ENVELOPE_DECAY + e * (1 - ENVELOPE_DECAY)) with henv
  set thr := st.detection_threshold * (1/2 + sl * (1/2)) with hthr
  by_cases hcr : thr < env ∧ g.prev_envelope ≤ thr
  · rw [if_pos hcr]
    by_cases hacc : st.beat_times = [] ∨
        MIN_BEAT_INTERVAL ≤ now - st.beat_times.getLastD 0
    · rw [if_pos hacc]
      have hlast : ∀ x ∈ st.beat_times.getLast?, ∀ y ∈ ([now] : List ℕ).head?,
          x < y := by
        intro x hx y hy
        have hne : st.beat_times ≠ [] := by
          intro hnil
          rw [hnil] at hx
          exact absurd hx (by simp)
        rw [List.getLast?_eq_getLast _ hne] at hx
        have hxval : st.beat_times.getLast hne = x := by
          simpa using hx
        have hyval : now = y := by
          simpa using hy
        subst hxval
        subst hyval
        have hxle : st.beat_times.getLast hne ≤ now :=
          hpast _ (List.getLast_mem hne)
        rcases hacc with hnil | hdeb
        · exact absurd hnil hne
        · have hD : st.beat_times.getLastD 0 = st.beat_times.getLast hne := by
            rw [List.getLastD_eq_getLast?, List.getLast?_eq_getLast _ hne]
            rfl
          rw [hD] at hdeb
          have h300 : (300 : ℕ) ≤ now - st.beat_times.getLast hne := by
            simpa [MIN_BEAT_INTERVAL] using hdeb
          omega
      have hchainApp : (st.beat_times ++ [now]).Chain' (· < ·) :=
        List.chain'_append.mpr ⟨hchain, List.chain'_singleton now, hlast⟩
      have hlenApp : (st.beat_times ++ [now]).length =
          st.beat_times.length + 1 := by
        simp
      by_cases hfull : 32 < (st.beat_times ++ [now]).length
      · rw [if_pos hfull]
        rw [hlenApp] at hfull
        have hlen32 : st.beat_times.length = 32 := by
          omega
        have hne : st.beat_times ≠ [] := by
          intro hnil
          rw [hnil] at hlen32
          exact absurd hlen32 (by decide)
        have hdropApp : (st.beat_times ++ [now]).drop 1 =
            st.beat_times.drop 1 ++ [now] :=
          List.drop_append_of_le_length (by
            have : 0 < st.beat_times.length := List.length_pos.mpr hne
            omega)
        refine ⟨fun _ => ⟨hcr, hacc⟩, rfl, rfl, ?_, ?_, ?_⟩
        · show ((st.beat_times ++ [now]).drop 1).Chain' (· < ·)
          rw [hdropApp]
          have htail := hchainApp.tail
          rw [List.tail_append_of_ne_nil hne] at htail
          simpa [List.drop_one] using htail
        · show ((st.beat_times ++ [now]).drop 1).length ≤ 32
          rw [hdropApp]
          simp only [List.length_append, List.length_drop,
            List.length_cons, List.length_nil]
          omega
        · exact Or.inr (Or.inr ⟨hlen32, hdropApp⟩)
      · rw [if_neg hfull]
        rw [hlenApp] at hfull
        have hlt : st.beat_times.length < 32 := by
          omega
        refine ⟨fun _ => ⟨hcr, hacc⟩, rfl, rfl, hchainApp, ?_, ?_⟩
        · show (st.beat_times ++ [now]).length ≤ 32
          rw [hlenApp]
          omega
        · exact Or.inr (Or.inl ⟨hlt, rfl⟩)
    · rw [if_neg hacc]
      exact ⟨fun hc => absurd rfl hc, rfl, rfl, hchain, hsize, Or.inl rfl⟩
  · rw [if_neg hcr]
    exact ⟨fun hc => absurd rfl hc, rfl, rfl, hchain, hsize, Or.inl rfl⟩

/-- A concrete detector state for the C7 witness: 8 kHz, 16-point FFT,
spectrum all ones, two recorded beats. -/
def witnessDetector : BPMDetector :=
  { sample_rate := 8000
    fft_size := 16
    min_bpm := MIN_BPM
    max_bpm := MAX_BPM
    detection_threshold := DETECTION_THRESHOLD
    envelope_value := 0
    envelope_threshold := DETECTION_THRESHOLD
    sample_buffer := List.replicate 16 0
    fft_buffer := List.replicate 8 1
    beat_times := [0, 400] }

/-- Witness for C7 at a concrete input: detector with spectrum all ones at
8 kHz / 16-point FFT, history `[0, 400]`, clock at 800 ms; the hypotheses
hold by computation and the theorem applies. -/
theorem C7_witness :
    (witnessDetector.beat_times.Chain' (· < ·) ∧
      (∀ t ∈ witnessDetector.beat_times, t ≤ 800) ∧
      witnessDetector.beat_times.length ≤ BEAT_HISTORY_SIZE) ∧
    (witnessDetector.detectBeatEnvelope
        ⟨0, none⟩ 1 800).1.beat_times.Chain' (· < ·) := by
  refine ⟨⟨?_, by decide, by decide⟩, ?_⟩
  · show List.Chain' (· < ·) [0, 400]
    simp
  · exact (C7_beat_history_debounce_invariants witnessDetector
      ⟨0, none⟩ 1 800
      (by show List.Chain' (· < ·) [0, 400]; simp)
      (by decide) (by decide)).2.2.2.1

/-- Summing `getD` lookups over an index range equals summing the
corresponding slice, when the range stays inside the list. -/
lemma sum_range_getD (l : List ℚ) (a : ℕ) :
    ∀ b : ℕ, a + b ≤ l.length →
      ((List.range b).map (fun k => l.getD (a + k) 0)).sum =
        ((l.drop a).take b).sum := by
  intro b
  induction b with
  | zero =>
      intro _
      simp
  | succ b ih =>
      intro h
      have hb : a + b ≤ l.length := by omega
      have hlt : a + b < l.length := by omega
      rw [List.range_succ, List.map_append, List.sum_append, ih hb,
        List.take_succ, List.sum_append]
      congr 1
      simp only [List.map_cons, List.map_nil, List.sum_cons, List.sum_nil,
        add_zero]
      rw [List.getD_eq_getElem?_getD, List.getElem?_drop,
        List.getElem?_eq_getElem hlt]
      simp

/-- The clamped bass bins in closed form. -/
lemma bassBins_eq (sr N : ℕ) :
    bassBins sr N =
      ((if N / 2 ≤ 40 * N / sr then 0 else 40 * N / sr),
       (if N / 2 ≤ 200 * N / sr then N / 2 - 1 else 200 * N / sr)) :=
  rfl

/-- C8: for every configured sample rate and power-of-two FFT size, the
clamped bass bins satisfy `bin_min ≤ bin_max < N/2`, so every magnitude
index accessed lies inside the `N/2`-element spectrum, the divisor
`bin_max - bin_min + 1` is at least 1, and the bass energy is the mean of
the magnitudes over that bin range (the slice sum divided by the bin
count). -/
theorem C8_bass_energy_bins_in_range (sr N : ℕ) (buf : List ℚ)
    (hsr : 1 ≤ sr) (hN : ∃ k, 0 < k ∧ N = 2 ^ k) (hbuf : buf.length = N / 2) :
    (bassBins sr N).1 ≤ (bassBins sr N).2 ∧
    (bassBins sr N).2 < N / 2 ∧
    1 ≤ (bassBins sr N).2 - (bassBins sr N).1 + 1 ∧
    (∀ i, (bassBins sr N).1 ≤ i → i ≤ (bassBins sr N).2 → i < buf.length) ∧
    bassEnergyOf sr N buf =
      ((buf.drop (bassBins sr N).1).take
          ((bassBins sr N).2 + 1 - (bassBins sr N).1)).sum /
        (((bassBins sr N).2 - (bassBins sr N).1 + 1 : ℕ) : ℚ) := by
  obtain ⟨k, hk, hNval⟩ := hN
  have hN2 : 2 ≤ N := by
    rw [hNval]
    calc 2 = 2 ^ 1 := by norm_num
      _ ≤ 2 ^ k := Nat.pow_le_pow_right (by norm_num) hk
  have hhalf : 1 ≤ N / 2 := Nat.one_le_div_iff (by norm_num) |>.mpr hN2
  have hmono : 40 * N / sr ≤ 200 * N / sr :=
    Nat.div_le_div_right (Nat.mul_le_mul_right N (by norm_num))
  have hbins : (bassBins sr N).1 ≤ (bassBins sr N).2 ∧
      (bassBins sr N).2 < N / 2 := by
    rw [bassBins_eq]
    by_cases h1 : N / 2 ≤ 40 * N / sr
    · have h2 : N / 2 ≤ 200 * N / sr := le_trans h1 hmono
      rw [if_pos h1, if_pos h2]
      constructor
      · omega
      · omega
    · rw [if_neg h1]
      by_cases h2 : N / 2 ≤ 200 * N / sr
      · rw [if_pos h2]
        constructor
        · omega
        · omega
      · rw [if_neg h2]
        constructor
        · exact hmono
        · omega
  refine ⟨hbins.1, hbins.2, by omega, ?_, ?_⟩
  · intro i h1 h2
    rw [hbuf]
    omega
  · unfold bassEnergyOf
    dsimp only
    rw [sum_range_getD buf (bassBins sr N).1 ((bassBins sr N).2 + 1 -
        (bassBins sr N).1) (by rw [hbuf]; omega)]

/-- Witness for C8 at the configured values: 8 kHz sample rate, 512-point
FFT (2^9), a 256-entry spectrum; the hypotheses hold by computation and the
theorem applies. -/
theorem C8_witness :
    ((1 : ℕ) ≤ 8000 ∧ (∃ k, 0 < k ∧ (512 : ℕ) = 2 ^ k) ∧
      (List.replicate 256 (0 : ℚ)).length = 512 / 2) ∧
    (bassBins 8000 512).1 ≤ (bassBins 8000 512).2 ∧
    (bassBins 8000 512).2 < 512 / 2 := by
  have hlen : (List.replicate 256 (0 : ℚ)).length = 512 / 2 := by
    rw [List.length_replicate]
  refine ⟨⟨by decide, ⟨9, by decide, by decide⟩, hlen⟩, ?_, ?_⟩
  · exact (C8_bass_energy_bins_in_range 8000 512 (List.replicate 256 0)
      (by decide) ⟨9, by decide, by decide⟩ hlen).1
  · exact (C8_bass_energy_bins_in_range 8000 512 (List.replicate 256 0)
      (by decide) ⟨9, by decide, by decide⟩ hlen).2.1

/-! ## Cross-instance interference through function-local statics (C6) -/

/-- Detector instance A of the C6 scenario: 8 kHz, 16-point FFT, loud bass
spectrum (every magnitude 1). -/
def instanceA : BPMDetector :=
  { sample_rate := 8000
    fft_size := 16
    min_bpm := MIN_BPM
    max_bpm := MAX_BPM
    detection_threshold := DETECTION_THRESHOLD
    envelope_value := 0
    envelope_threshold := DETECTION_THRESHOLD
    sample_buffer := List.replicate 16 0
    fft_buffer := List.replicate 8 1
    beat_times := [] }

/-- Detector instance B of the C6 scenario: identical configuration but a
silent spectrum (every magnitude 0). -/
def instanceB : BPMDetector := BPMDetector.init 8000 16

/-- Instance A running alone: two `detectBeatEnvelope` cycles at t = 0 ms
and t = 400 ms, threading the program-wide static `prev_envelope`. -/
def soloRunA : BPMDetector × Globals :=
  let s1 := instanceA.detectBeatEnvelope ⟨0, none⟩ 1 0
  s1.1.detectBeatEnvelope s1.2 1 400

/-- The same two cycles of instance A, but with one `detectBeatEnvelope`
cycle of instance B interleaved at t = 100 ms.  The shared static
`prev_envelope` (src/bpm_detector.cpp line 237) is threaded through all
three calls, so B's low envelope re-arms A's rising-edge detector. -/
def interleavedRunA : BPMDetector × Globals :=
  let s1 := instanceA.detectBeatEnvelope ⟨0, none⟩ 1 0
  let sB := instanceB.detectBeatEnvelope s1.2 1 100
  s1.1.detectBeatEnvelope sB.2 1 400

/-- C6 (code_bug): beat detection is not isolated between instances.
Running instance A alone yields beat history `[0]` (its own envelope stayed
above threshold, so no second rising edge); interleaving one call of
instance B resets the shared static `prev_envelope` to B's low envelope, and
the very same two calls of A now yield `[0, 400]`.  One instance's
`detect()` thus changes another instance's observable output, which the
specification excludes ("no state crosses instance boundaries"). -/
theorem C6_static_prev_envelope_interference :
    soloRunA.1.beat_times = [0] ∧
    interleavedRunA.1.beat_times = [0, 400] ∧
    soloRunA.1.beat_times ≠ interleavedRunA.1.beat_times := by
  have h1 : soloRunA.1.beat_times = [0] := by
    norm_num [soloRunA, instanceA, BPMDetector.detectBeatEnvelope,
      bassEnergyOf, bassBins, BASS_FREQ_MIN, BASS_FREQ_MAX, ENVELOPE_DECAY,
      DETECTION_THRESHOLD, MIN_BEAT_INTERVAL, BEAT_HISTORY_SIZE,
      List.range_succ, List.getD]
  have h2 : interleavedRunA.1.beat_times = [0, 400] := by
    norm_num [interleavedRunA, instanceA, instanceB, BPMDetector.init,
      BPMDetector.detectBeatEnvelope, bassEnergyOf, bassBins, BASS_FREQ_MIN,
      BASS_FREQ_MAX, ENVELOPE_DECAY, DETECTION_THRESHOLD, MIN_BPM, MAX_BPM,
      MIN_BEAT_INTERVAL, BEAT_HISTORY_SIZE, List.range_succ, List.getD]
  refine ⟨h1, h2, ?_⟩
  rw [h1, h2]
  intro hc
  exact absurd (congrArg List.length hc) (by decide)

/-! ## Analog front end (src/src/audio_input.cpp)

The filter classes keep real-valued state because their construction uses
`PI` and `tan`.  In `AudioInput::readSample` the three filter stages sit
behind `#if USE_DC_BLOCKING_FILTER`, `#if USE_BASS_BAND_PASS_FILTER` and
`#if USE_HIGH_PASS_FILTER`; none of those macros is defined anywhere in the
repository, so the preprocessor evaluates each guard to 0 and the stages are
compiled out — the filter members exist and hold state but `readSample`
never calls them. -/

/-- `HighPassFilter` state (src/src/audio_input.cpp lines 26-43). -/
structure HighPassFilter where
  alpha : ℝ
  prev_input : ℝ
  prev_output : ℝ

/-- `HighPassFilter::HighPassFilter(cutoff_hz, sample_rate)`
(src/src/audio_input.cpp lines 26-35): `rc = 1/(2π·fc)`, `dt = 1/fs`,
`alpha = rc/(rc+dt)`, history zeroed. -/
noncomputable def HighPassFilter.init (cutoff_hz sample_rate : ℝ) :
    HighPassFilter :=
  let rc := 1 / (2 * Real.pi * cutoff_hz)
  let dt := 1 / sample_rate
  { alpha := rc / (rc + dt), prev_input := 0, prev_output := 0 }

/-- `HighPassFilter::process` (src/src/audio_input.cpp lines 37-43):
`y[n] = alpha·(y[n−1] + x[n] − x[n−1])`. -/
def HighPassFilter.process (f : HighPassFilter) (input : ℝ) :
    ℝ × HighPassFilter :=
  let output := f.alpha * (f.prev_output + input - f.prev_input)
  (output, { f with prev_input := input, prev_output := output })

/-- `BassBandPassFilter` state (src/src/audio_input.cpp lines 45-86):
five coefficients and four history entries. -/
structure BassBandPassFilter where
  b0 : ℝ
  b1 : ℝ
  b2 : ℝ
  a1 : ℝ
  a2 : ℝ
  x1 : ℝ
  x2 : ℝ
  y1 : ℝ
  y2 : ℝ

/-- `BassBandPassFilter::BassBandPassFilter(sample_rate)`
(src/src/audio_input.cpp lines 45-73), statement by statement: the
normalized cutoffs `f1`, `f2`, the angular frequencies `wc1`, `wc2` and the
pre-warped frequencies `wc1_warp`, `wc2_warp` are computed — and then never
used; the coefficients are assigned the fixed constants
`b0 = 0.0018`, `b1 = 0`, `b2 = −0.0018`, `a1 = −1.7991`, `a2 = 0.8187`
("Simplified coefficients"), independent of `sample_rate`; the history is
zeroed. -/
noncomputable def BassBandPassFilter.init (sample_rate : ℝ) :
    BassBandPassFilter :=
  let f1 := 40 / (sample_rate / 2)
  let f2 := 200 / (sample_rate / 2)
  let wc1 := 2 * Real.pi * f1
  let wc2 := 2 * Real.pi * f2
  let k := sample_rate / Real.pi
  let wc1_warp := 2 * sample_rate * Real.tan (wc1 / (2 * sample_rate))
  let wc2_warp := 2 * sample_rate * Real.tan (wc2 / (2 * sample_rate))
  { b0 := 0.0018, b1 := 0, b2 := -0.0018, a1 := -1.7991, a2 := 0.8187,
    x1 := 0, x2 := 0, y1 := 0, y2 := 0 }

/-- `BassBandPassFilter::process` (src/src/audio_input.cpp lines 75-86):
`y[n] = b0·x[n] + b1·x[n−1] + b2·x[n−2] − a1·y[n−1] − a2·y[n−2]`, then the
history shifts. -/
def BassBandPassFilter.process (f : BassBandPassFilter) (input : ℝ) :
    ℝ × BassBandPassFilter :=
  let output := f.b0 * input + f.b1 * f.x1 + f.b2 * f.x2
    - f.a1 * f.y1 - f.a2 * f.y2
  (output, { f with x2 := f.x1, x1 := input, y2 := f.y1, y1 := output })

/-- `DCBlocker` state (src/src/audio_input.cpp lines 88-100). -/
structure DCBlocker where
  pole : ℝ
  x1 : ℝ
  y1 : ℝ

/-- `DCBlocker::DCBlocker(pole)` (src/src/audio_input.cpp lines 88-91). -/
def DCBlocker.init (pole : ℝ) : DCBlocker :=
  { pole := pole, x1 := 0, y1 := 0 }

/-- `DCBlocker::process` (src/src/audio_input.cpp lines 93-100):
`y[n] = x[n] − x[n−1] + pole·y[n−1]`. -/
def DCBlocker.process (f : DCBlocker) (input : ℝ) : ℝ × DCBlocker :=
  let output := input - f.x1 + f.pole * f.y1
  (output, { f with x1 := input, y1 := output })

/-- `RMS_BUFFER_SIZE` (src/src/audio_input.h line 91). -/
def RMS_BUFFER_SIZE : ℕ := 100

/-- The per-instance fields of `class AudioInput`
(src/src/audio_input.cpp lines 102-117).  The ADC pins and stereo flag take
no part in the claims; the logging-only static `sampleCount` of `readSample`
has no effect on any output and is omitted. -/
structure AudioInput where
  initialized : Bool
  signal_level : ℝ
  max_signal : ℚ
  min_signal : ℚ
  rms_index : ℕ
  rms_buffer : List ℚ
  high_pass_filter : HighPassFilter
  bass_filter : BassBandPassFilter
  dc_blocker : DCBlocker

/-- `AudioInput::AudioInput()` (src/src/audio_input.cpp lines 102-117):
uninitialized, peaks at 0 / 4095, RMS window resized to 100 zeros, filters
constructed from `SAMPLE_RATE = 8000`, `HIGH_PASS_CUTOFF_HZ = 20` and
`DC_BLOCKER_POLE = 0.995`. -/
noncomputable def AudioInput.construct : AudioInput :=
  { initialized := false
    signal_level := 0
    max_signal := 0
    min_signal := 4095
    rms_index := 0
    rms_buffer := List.replicate RMS_BUFFER_SIZE 0
    high_pass_filter := HighPassFilter.init 20 8000
    bass_filter := BassBandPassFilter.init 8000
    dc_blocker := DCBlocker.init 0.995 }

/-- `AudioInput::resetCalibration` (src/src/audio_input.cpp lines 442-448):
zero the signal level, the peak trackers, the RMS index and every RMS
window entry (`std::fill`).  The filter members are not touched. -/
def AudioInput.resetCalibration (st : AudioInput) : AudioInput :=
  { st with
    signal_level := 0
    max_signal := 0
    min_signal := 4095
    rms_index := 0
    rms_buffer := st.rms_buffer.map (fun _ => 0) }

/-- `AudioInput::begin` via `beginStereo` (src/src/audio_input.cpp lines
128-233): the ADC hardware configuration has no observable effect on the
sample path; the call ends with `resetCalibration()` and
`initialized_ = true`. -/
def AudioInput.start (st : AudioInput) : AudioInput :=
  { st.resetCalibration with initialized := true }

/-- `AudioInput::calculateRMS` (src/src/audio_input.cpp lines 407-416):
square root of the mean square over the RMS window. -/
noncomputable def AudioInput.calculateRMS (st : AudioInput) : ℝ :=
  if st.rms_buffer = [] then 0
  else Real.sqrt
    (((st.rms_buffer.map (fun s => s * s)).sum / st.rms_buffer.length : ℚ) : ℝ)

/-- `AudioInput::updateSignalLevel` (src/src/audio_input.cpp lines 389-405):
write `|sample|` at the RMS index, advance the index modulo 100, update the
running peaks, recompute the RMS signal level. -/
noncomputable def AudioInput.updateSignalLevel (st : AudioInput) (sample : ℚ) :
    AudioInput :=
  let abs_sample := |sample|
  let st' : AudioInput :=
    { st with
      rms_buffer := st.rms_buffer.set st.rms_index abs_sample
      rms_index := (st.rms_index + 1) % RMS_BUFFER_SIZE
      max_signal := if st.max_signal < abs_sample then abs_sample
        else st.max_signal
      min_signal := if abs_sample < st.min_signal then abs_sample
        else st.min_signal }
  { st' with signal_level := st'.calculateRMS }

/-- `AudioInput::readSample` (src/src/audio_input.cpp lines 235-326):
return 0 when uninitialized; clamp an out-of-range raw code to the midpoint
2048; convert it to a voltage (`conv` abstracts the ESP32 calibrated
conversion or the linear fallback, both functions of the raw code shared by
every instance through the global `adc_chars`); the three filter stages are
compiled out (`#if` on undefined macros), so the AC signal is the voltage
itself; update the signal-level tracker and return the sample. -/
noncomputable def AudioInput.readSample (st : AudioInput) (conv : ℕ → ℚ)
    (raw : ℕ) : ℚ × AudioInput :=
  if st.initialized = false then (0, st)
  else
    let raw_value := if 4095 < raw then 2048 else raw
    let voltage := conv raw_value
    let ac_signal := voltage
    (ac_signal, st.updateSignalLevel ac_signal)

/-- `AudioInput::getSignalLevel` (src/src/audio_input.cpp lines 418-420). -/
def AudioInput.getSignalLevel (st : AudioInput) : ℝ :=
  st.signal_level

/-- The trace of `getSignalLevel()` values observed after each
`readSample()` call on a fixed raw-code sequence. -/
noncomputable def signalTrace (conv : ℕ → ℚ) :
    AudioInput → List ℕ → List ℝ
  | _, [] => []
  | st, r :: rest =>
      ((st.readSample conv r).2.getSignalLevel) ::
        signalTrace conv (st.readSample conv r).2 rest

/-- The fields `readSample`/`getSignalLevel` read or write: everything
except the (untouched) filter members. -/
def sameSignalPath (s t : AudioInput) : Prop :=
  s.initialized = t.initialized ∧ s.signal_level = t.signal_level ∧
  s.max_signal = t.max_signal ∧ s.min_signal = t.min_signal ∧
  s.rms_index = t.rms_index ∧ s.rms_buffer = t.rms_buffer

/-- One `readSample` step preserves agreement on the signal path. -/
lemma readSample_sameSignalPath (conv : ℕ → ℚ) (r : ℕ) (s t : AudioInput)
    (h : sameSignalPath s t) :
    sameSignalPath (s.readSample conv r).2 (t.readSample conv r).2 := by
  obtain ⟨h1, h2, h3, h4, h5, h6⟩ := h
  unfold AudioInput.readSample
  rw [h1]
  by_cases hini : t.initialized = false
  · rw [if_pos hini, if_pos hini]
    exact ⟨h1, h2, h3, h4, h5, h6⟩
  · rw [if_neg hini, if_neg hini]
    unfold AudioInput.updateSignalLevel AudioInput.calculateRMS
    dsimp only
    rw [h3, h4, h5, h6]
    exact ⟨h1, rfl, rfl, rfl, rfl, rfl⟩

/-- Agreement on the signal path yields identical signal-level traces. -/
lemma signalTrace_congr (conv : ℕ → ℚ) :
    ∀ (raws : List ℕ) (s t : AudioInput), sameSignalPath s t →
      signalTrace conv s raws = signalTrace conv t raws
  | [], _, _, _ => rfl
  | r :: raws, s, t, h => by
    have hstep := readSample_sameSignalPath conv r s t h
    unfold signalTrace
    rw [signalTrace_congr conv raws _ _ hstep]
    rw [AudioInput.getSignalLevel, AudioInput.getSignalLevel, hstep.2.1]

/-- C9: `resetCalibration()` zeroes the RMS window, the index, the peak
trackers and the signal level; afterwards, feeding any fixed sequence of
raw ADC codes through `readSample()` yields the same `getSignalLevel()`
trace as feeding the identical sequence into a freshly constructed (and
begun — a never-begun instance ignores its input) `AudioInput`: the trace
after a reset depends only on the samples supplied after the reset. -/
theorem C9_resetCalibration_trace_fresh (st : AudioInput) (conv : ℕ → ℚ)
    (raws : List ℕ) (hinit : st.initialized = true)
    (hlen : st.rms_buffer.length = RMS_BUFFER_SIZE) :
    signalTrace conv st.resetCalibration raws =
      signalTrace conv AudioInput.construct.start raws := by
  apply signalTrace_congr
  unfold AudioInput.resetCalibration AudioInput.start AudioInput.construct
  refine ⟨?_, rfl, rfl, rfl, rfl, ?_⟩
  · exact hinit
  · show st.rms_buffer.map (fun _ => (0 : ℚ)) =
      (List.replicate RMS_BUFFER_SIZE (0 : ℚ)).map (fun _ => (0 : ℚ))
    rw [List.map_const', List.map_const', hlen, List.length_replicate]

/-- A used, concrete `AudioInput` for the C9 witness: begun, with a dirty
RMS window, dirty peaks and a nonzero signal level. -/
noncomputable def witnessAudio : AudioInput :=
  { AudioInput.construct.start with
    signal_level := 3
    max_signal := 7
    min_signal := 2
    rms_index := 42
    rms_buffer := List.replicate RMS_BUFFER_SIZE 5 }

/-- The linear fallback voltage conversion of `readSample`
(src/src/audio_input.cpp lines 281-284): `(raw / 4095) · 1.1`. -/
def linearConv (raw : ℕ) : ℚ := ((raw : ℚ) / 4095) * (11/10)

/-- Witness for C9 at a concrete input: the dirty instance satisfies the
hypotheses and the theorem applies to the two-sample sequence
`[1000, 2000]`. -/
theorem C9_witness :
    (witnessAudio.initialized = true ∧
      witnessAudio.rms_buffer.length = RMS_BUFFER_SIZE) ∧
    signalTrace linearConv witnessAudio.resetCalibration [1000, 2000] =
      signalTrace linearConv AudioInput.construct.start [1000, 2000] := by
  refine ⟨⟨rfl, by simp [witnessAudio]⟩, ?_⟩
  exact C9_resetCalibration_trace_fresh witnessAudio linearConv [1000, 2000]
    rfl (by simp [witnessAudio])

/-- C5 counterexample: the band-pass coefficients are not derived from the
configured sample rate — the constructor computes the pre-warped
frequencies and discards them, hard-coding the same five constants for
every rate.  At the two concrete rates 8000 Hz (the configured
`SAMPLE_RATE`) and 25000 Hz (the rate the comment says the constants were
designed for) all five coefficients coincide, so the filter cannot realize
a 40–200 Hz Butterworth response at every configured sample rate. -/
theorem C5_counterexample_coefficients_constant :
    (BassBandPassFilter.init 8000).b0 = (BassBandPassFilter.init 25000).b0 ∧
    (BassBandPassFilter.init 8000).b1 = (BassBandPassFilter.init 25000).b1 ∧
    (BassBandPassFilter.init 8000).b2 = (BassBandPassFilter.init 25000).b2 ∧
    (BassBandPassFilter.init 8000).a1 = (BassBandPassFilter.init 25000).a1 ∧
    (BassBandPassFilter.init 8000).a2 = (BassBandPassFilter.init 25000).a2 :=
  ⟨rfl, rfl, rfl, rfl, rfl⟩

/-- C5 amended: the coefficients are fixed constants (`b0 = 0.0018`,
`b1 = 0`, `b2 = −0.0018`, `a1 = −1.7991`, `a2 = 0.8187`), set once at
construction and independent of the configured sample rate (the
bilinear-transform pre-warp quantities are computed but unused), and each
sample is processed by the recurrence
`y[n] = b0·x[n] + b1·x[n−1] + b2·x[n−2] − a1·y[n−1] − a2·y[n−2]`, which
never alters the coefficients. -/
theorem C5_amended_hardcoded_coefficients_recurrence (sr input : ℝ)
    (f : BassBandPassFilter) :
    ((BassBandPassFilter.init sr).b0 = 0.0018 ∧
      (BassBandPassFilter.init sr).b1 = 0 ∧
      (BassBandPassFilter.init sr).b2 = -0.0018 ∧
      (BassBandPassFilter.init sr).a1 = -1.7991 ∧
      (BassBandPassFilter.init sr).a2 = 0.8187) ∧
    ((f.process input).1 =
      f.b0 * input + f.b1 * f.x1 + f.b2 * f.x2 - f.a1 * f.y1 - f.a2 * f.y2) ∧
    ((f.process input).2.b0 = f.b0 ∧ (f.process input).2.b1 = f.b1 ∧
      (f.process input).2.b2 = f.b2 ∧ (f.process input).2.a1 = f.a1 ∧
      (f.process input).2.a2 = f.a2) ∧
    ((f.process input).2.x1 = input ∧ (f.process input).2.x2 = f.x1 ∧
      (f.process input).2.y1 = (f.process input).1 ∧
      (f.process input).2.y2 = f.y1) :=
  ⟨⟨rfl, rfl, rfl, rfl, rfl⟩, rfl, ⟨rfl, rfl, rfl, rfl, rfl⟩,
    ⟨rfl, rfl, rfl, rfl⟩⟩

end BPMCore
